import Mathlib

/-!
Verification of the clinic outpatient appointment booker
(`clinic_app/app.py`) against its specification.

The data model and operations below are a shallow embedding of the
Python source.  The database (SQLAlchemy over SQLite) is modelled as an
explicit state record holding the `outpatient_schedules` table, the
`appointment_records` table in insertion order, the autoincrement
counter for appointment ids, and a logical clock standing for
`datetime.utcnow` (timestamps only need to be monotone).
-/

namespace Clinic

/-- Row of `outpatient_schedules` (class `OutpatientSchedule`). `date` is
an opaque calendar-day encoding; quotas are integers as in the source. -/
structure Schedule where
  schedule_id : Nat
  date : Nat
  time_slot : String
  doctor_name : String
  department : String
  max_quota : Int
  current_quota : Int
  deriving Repr, DecidableEq

/-- `OutpatientSchedule.remaining_quota`, the derived property
`max_quota - current_quota`. -/
def Schedule.remaining_quota (s : Schedule) : Int :=
  s.max_quota - s.current_quota

/-- Row of `appointment_records` (class `AppointmentRecord`). -/
structure AppointmentRecord where
  appointment_id : Nat
  status : String
  member_id : Nat
  schedule_id : Nat
  created_at : Nat
  deriving Repr, DecidableEq

/-- Row of `members` (class `Member`).  The bcrypt hash is kept as an
opaque string; hash checking is a parameter of `verify_login`. -/
structure Member where
  member_id : Nat
  name : String
  email : String
  medical_record : String
  password_hash : String
  deriving Repr, DecidableEq

/-- The database state: both tables, the autoincrement appointment id,
and a logical clock for `created_at` timestamps. -/
structure ClinicState where
  schedules : List Schedule
  ledger : List AppointmentRecord
  next_appointment_id : Nat
  now : Nat
  deriving Repr, DecidableEq

/-- `OutpatientSchedule.query.get(schedule_id)`: primary-key lookup. -/
def getSchedule (st : ClinicState) (sid : Nat) : Option Schedule :=
  st.schedules.find? (fun s => s.schedule_id == sid)

/-- `get_available_schedules(target_date)`:
`OutpatientSchedule.query.filter_by(date=target_date).all()` — no
explicit ordering, so rows come back in table (insertion) order. -/
def get_available_schedules (st : ClinicState) (target_date : Nat) : List Schedule :=
  st.schedules.filter (fun s => s.date == target_date)

/-- `validate_quota(schedule_id)`: `False` when the schedule is absent,
otherwise `remaining_quota > 0`. -/
def validate_quota (st : ClinicState) (sid : Nat) : Bool :=
  match getSchedule st sid with
  | none => false
  | some s => decide (s.remaining_quota > 0)

/-- The read half of `create_appointment` (line 78): fetch the schedule
row into the session.  Everything after this point in the source works
on the fetched object, not on the live table. -/
def create_appointment_read (st : ClinicState) (sid : Nat) : Option Schedule :=
  getSchedule st sid

/-- The remainder of `create_appointment` (lines 79-93), acting on the
snapshot fetched by `create_appointment_read`: return `None` when the
row was absent or its remaining quota is `<= 0`; otherwise write back
`snapshot.current_quota + 1` to the row with that primary key, append a
`"Success"` record and commit. -/
def create_appointment_commit (st : ClinicState) (snapshot : Option Schedule)
    (member_id sid : Nat) : Option AppointmentRecord × ClinicState :=
  match snapshot with
  | none => (none, st)
  | some s =>
    if s.remaining_quota ≤ 0 then (none, st)
    else
      let appt : AppointmentRecord :=
        { appointment_id := st.next_appointment_id
          status := "Success"
          member_id := member_id
          schedule_id := sid
          created_at := st.now }
      (some appt,
        { schedules := st.schedules.map (fun t =>
            if t.schedule_id == sid
            then { t with current_quota := s.current_quota + 1 }
            else t)
          ledger := st.ledger ++ [appt]
          next_appointment_id := st.next_appointment_id + 1
          now := st.now + 1 })

/-- `create_appointment(member_id, schedule_id)`: fetch the row, bail
out with `None` on absence or exhausted quota, otherwise increment the
quota, insert a `"Success"` appointment record and return it. -/
def create_appointment (st : ClinicState) (member_id sid : Nat) :
    Option AppointmentRecord × ClinicState :=
  create_appointment_commit st (create_appointment_read st sid) member_id sid

/-- Observable outcome of the booking branch of the `/appointment` POST
handler: success redirects to `my_appointments`; `slotFull` is the
"此時段預約已滿" flash shown whenever `validate_quota` is false (for a
missing schedule as well as a full one); `createFailed` is the
"預約建立失敗" flash when `create_appointment` returns `None` after
`validate_quota` passed. -/
inductive BookOutcome where
  | success (appt : AppointmentRecord)
  | slotFull
  | createFailed
  deriving Repr, DecidableEq

/-- The booking flow of the `/appointment` POST handler (lines 145-161):
`validate_quota` then `create_appointment`, mapped to the user-visible
outcome. -/
def bookAppointment (st : ClinicState) (member_id sid : Nat) :
    BookOutcome × ClinicState :=
  if validate_quota st sid then
    match create_appointment st member_id sid with
    | (some appt, st') => (.success appt, st')
    | (none, st') => (.createFailed, st')
  else (.slotFull, st)

/-- Insert a record into a list sorted by `created_at` descending
(auxiliary for the `order_by(created_at.desc())` query). -/
def insertByCreatedDesc (a : AppointmentRecord) :
    List AppointmentRecord → List AppointmentRecord
  | [] => [a]
  | b :: l =>
    if b.created_at ≤ a.created_at then a :: b :: l
    else b :: insertByCreatedDesc a l

/-- Sort by `created_at` descending (`order_by(created_at.desc())`). -/
def sortByCreatedDesc (l : List AppointmentRecord) : List AppointmentRecord :=
  l.foldr insertByCreatedDesc []

/-- The `/my_appointments` query (lines 176-180):
`AppointmentRecord.query.filter_by(member_id=...).order_by(created_at.desc()).all()`. -/
def my_appointments (st : ClinicState) (member_id : Nat) : List AppointmentRecord :=
  sortByCreatedDesc (st.ledger.filter (fun a => a.member_id == member_id))

/-- `verify_login(email, password)`: look the member up by email and
check the password against the stored bcrypt hash; `None` both when no
such email exists and when the hash check fails.  The bcrypt
`check_password_hash` library call is the parameter `check`. -/
def verify_login (check : String → String → Bool) (members : List Member)
    (email password : String) : Option Member :=
  match members.find? (fun m => m.email == email) with
  | none => none
  | some m => if check m.password_hash password then some m else none

/-- Quota invariant of the spec: `0 <= current_quota <= max_quota` for
every schedule in the store. -/
def quotaInvariant (st : ClinicState) : Prop :=
  ∀ s ∈ st.schedules, 0 ≤ s.current_quota ∧ s.current_quota ≤ s.max_quota

/-- Primary-key integrity of the `outpatient_schedules` table:
`schedule_id` is unique. -/
def uniqueScheduleIds (st : ClinicState) : Prop :=
  (st.schedules.map Schedule.schedule_id).Nodup

/-- Lexicographic less-or-equal on character lists (the usual string
order, written out so that it evaluates). -/
def charListLe : List Char → List Char → Bool
  | [], _ => true
  | _ :: _, [] => false
  | a :: as, b :: bs =>
    if a < b then true
    else if b < a then false
    else charListLe as bs

/-- Lexicographic less-or-equal on strings. -/
def timeSlotLe (a b : String) : Bool :=
  charListLe a.data b.data

/-- The ordering the spec claims for `listByDate`: time-slot ascending. -/
def sortedByTimeSlot (l : List Schedule) : Prop :=
  List.Pairwise (fun a b => timeSlotLe a.time_slot b.time_slot = true) l

/-! ### Basic lemmas about the store lookup -/

theorem getSchedule_mem {st : ClinicState} {sid : Nat} {s : Schedule}
    (h : getSchedule st sid = some s) : s ∈ st.schedules :=
  List.mem_of_find?_eq_some h

theorem getSchedule_id {st : ClinicState} {sid : Nat} {s : Schedule}
    (h : getSchedule st sid = some s) : s.schedule_id = sid := by
  have hp := List.find?_some h
  simpa using hp

/-- The per-row update performed on a successful booking. -/
def bumpRow (sid : Nat) (q : Int) (t : Schedule) : Schedule :=
  if t.schedule_id == sid then { t with current_quota := q } else t

theorem bumpRow_id (sid : Nat) (q : Int) (t : Schedule) :
    (bumpRow sid q t).schedule_id = t.schedule_id := by
  by_cases h : t.schedule_id == sid <;> simp [bumpRow, h]

theorem bumpRow_ne (sid : Nat) (q : Int) (t : Schedule)
    (h : t.schedule_id ≠ sid) : bumpRow sid q t = t := by
  simp [bumpRow, h]

/-- Shape of `create_appointment` when the schedule is absent. -/
theorem create_appointment_of_none {st : ClinicState} {sid member_id : Nat}
    (h : getSchedule st sid = none) :
    create_appointment st member_id sid = (none, st) := by
  simp [create_appointment, create_appointment_read, create_appointment_commit, h]

/-- Shape of `create_appointment` when the quota is exhausted. -/
theorem create_appointment_of_full {st : ClinicState} {sid member_id : Nat}
    {s : Schedule} (h : getSchedule st sid = some s)
    (hq : s.remaining_quota ≤ 0) :
    create_appointment st member_id sid = (none, st) := by
  simp [create_appointment, create_appointment_read, create_appointment_commit, h, hq]

/-- Shape of `create_appointment` when a slot remains: the exact record
and successor state it produces. -/
theorem create_appointment_of_open {st : ClinicState} {sid member_id : Nat}
    {s : Schedule} (h : getSchedule st sid = some s)
    (hq : 0 < s.remaining_quota) :
    create_appointment st member_id sid =
      (some { appointment_id := st.next_appointment_id, status := "Success",
              member_id := member_id, schedule_id := sid, created_at := st.now },
       { schedules := st.schedules.map (bumpRow sid (s.current_quota + 1))
         ledger := st.ledger ++
           [{ appointment_id := st.next_appointment_id, status := "Success",
              member_id := member_id, schedule_id := sid, created_at := st.now }]
         next_appointment_id := st.next_appointment_id + 1
         now := st.now + 1 }) := by
  have hq' : ¬ s.remaining_quota ≤ 0 := not_le.mpr hq
  simp [create_appointment, create_appointment_read, create_appointment_commit,
    h, hq', bumpRow]

theorem validate_quota_of_none {st : ClinicState} {sid : Nat}
    (h : getSchedule st sid = none) : validate_quota st sid = false := by
  simp [validate_quota, h]

theorem validate_quota_of_some {st : ClinicState} {sid : Nat} {s : Schedule}
    (h : getSchedule st sid = some s) :
    validate_quota st sid = decide (s.remaining_quota > 0) := by
  simp [validate_quota, h]

/-- The booking flow rejects with the generic slot-full flash when the
schedule id is absent, and leaves the state untouched. -/
theorem bookAppointment_of_none {st : ClinicState} {sid member_id : Nat}
    (h : getSchedule st sid = none) :
    bookAppointment st member_id sid = (BookOutcome.slotFull, st) := by
  simp [bookAppointment, validate_quota_of_none h]

/-- The booking flow rejects with the slot-full flash when the quota is
exhausted, and leaves the state untouched. -/
theorem bookAppointment_of_full {st : ClinicState} {sid member_id : Nat}
    {s : Schedule} (h : getSchedule st sid = some s)
    (hq : s.remaining_quota ≤ 0) :
    bookAppointment st member_id sid = (BookOutcome.slotFull, st) := by
  have : validate_quota st sid = false := by
    rw [validate_quota_of_some h]
    simpa using hq
  simp [bookAppointment, this]

/-- Lookup in the store after a successful booking: the targeted row. -/
theorem getSchedule_map_bumpRow_self {st : ClinicState} {sid : Nat} {s : Schedule}
    (h : getSchedule st sid = some s) (q : Int) :
    (st.schedules.map (bumpRow sid q)).find? (fun t => t.schedule_id == sid) =
      some { s with current_quota := q } := by
  rw [List.find?_map]
  have hcomp :
      ((fun t : Schedule => t.schedule_id == sid) ∘ bumpRow sid q) =
        fun t : Schedule => t.schedule_id == sid := by
    funext t
    simp [Function.comp, bumpRow_id]
  rw [hcomp]
  have hs : st.schedules.find? (fun t => t.schedule_id == sid) = some s := h
  rw [hs]
  have hid : (s.schedule_id == sid) = true := by
    simpa using getSchedule_id h
  simp [Option.map, bumpRow, hid]

/-- Lookup in the store after a successful booking: any other row. -/
theorem getSchedule_map_bumpRow_other {st : ClinicState} {sid : Nat} (q : Int)
    {sid' : Nat} (hne : sid' ≠ sid) :
    (st.schedules.map (bumpRow sid q)).find? (fun t => t.schedule_id == sid') =
      st.schedules.find? (fun t => t.schedule_id == sid') := by
  rw [List.find?_map]
  have hcomp :
      ((fun t : Schedule => t.schedule_id == sid') ∘ bumpRow sid q) =
        fun t : Schedule => t.schedule_id == sid' := by
    funext t
    simp [Function.comp, bumpRow_id]
  rw [hcomp]
  cases hfind : st.schedules.find? (fun t => t.schedule_id == sid') with
  | none => simp
  | some t =>
    have ht : t.schedule_id = sid' := by
      have := List.find?_some hfind
      simpa using this
    have : bumpRow sid q t = t := bumpRow_ne _ _ _ (by rw [ht]; exact hne)
    simp [this]

/-! ### Concrete states used to evaluate the operations -/

/-- A fully booked schedule (spec scenario 2: `max_quota = 8`,
`current_quota = 8`). -/
def fullSched : Schedule :=
  { schedule_id := 1, date := 0, time_slot := "10:00-11:00",
    doctor_name := "Lin", department := "Pediatrics",
    max_quota := 8, current_quota := 8 }

/-- A store holding only the fully booked schedule. -/
def fullState : ClinicState :=
  { schedules := [fullSched]
    ledger := []
    next_appointment_id := 1
    now := 0 }

/-- A store holding one open schedule (2 of 10 slots taken). -/
def openState : ClinicState :=
  { schedules := [{ schedule_id := 1, date := 0, time_slot := "09:00-10:00",
                    doctor_name := "Wang", department := "Internal",
                    max_quota := 10, current_quota := 2 }]
    ledger := []
    next_appointment_id := 1
    now := 0 }

/-! ### Claim theorems -/

/-- C1: `create_appointment` preserves the quota invariant
`0 <= current_quota <= max_quota`: on the full-quota branch it leaves the
store untouched, and on the open branch it raises the targeted row by one
without passing `max_quota`.  Primary-key uniqueness of `schedule_id` is
the standing table integrity assumption. -/
theorem create_appointment_preserves_quotaInvariant
    (st : ClinicState) (member_id sid : Nat)
    (hu : uniqueScheduleIds st) (hq : quotaInvariant st) :
    quotaInvariant (create_appointment st member_id sid).2 := by
  cases hget : getSchedule st sid with
  | none =>
    rw [create_appointment_of_none hget]
    exact hq
  | some s =>
    by_cases hr : s.remaining_quota ≤ 0
    · rw [create_appointment_of_full hget hr]
      exact hq
    · rw [create_appointment_of_open hget (not_le.mp hr)]
      intro t' ht'
      rcases List.mem_map.mp ht' with ⟨t, ht, rfl⟩
      by_cases hid : t.schedule_id = sid
      · have hts : t = s := by
          refine List.inj_on_of_nodup_map hu ht (getSchedule_mem hget) ?_
          rw [hid, getSchedule_id hget]
        subst hts
        have hidb : (t.schedule_id == sid) = true := by simpa using hid
        have h0 : 0 ≤ t.current_quota := (hq t ht).1
        have hlt : t.current_quota < t.max_quota := by
          have := not_le.mp hr
          unfold Schedule.remaining_quota at this
          omega
        simp only [bumpRow, hidb, if_true]
        refine ⟨?_, ?_⟩ <;> omega
      · rw [bumpRow_ne _ _ _ hid]
        exact hq t ht

/-- C1 witness: the invariant is preserved when booking against the open
demo schedule. -/
theorem create_appointment_preserves_quotaInvariant_witness :
    quotaInvariant (create_appointment openState 1 1).2 :=
  create_appointment_preserves_quotaInvariant openState 1 1
    (by unfold uniqueScheduleIds; decide)
    (by unfold quotaInvariant; decide)

/-- C3: when `current_quota = max_quota`, the booking flow returns the
quota rejection and leaves the state — hence `current_quota` — unchanged. -/
theorem bookAppointment_full_rejected
    (st : ClinicState) (member_id sid : Nat) (s : Schedule)
    (h : getSchedule st sid = some s)
    (hfull : s.current_quota = s.max_quota) :
    bookAppointment st member_id sid = (BookOutcome.slotFull, st) := by
  apply bookAppointment_of_full h
  unfold Schedule.remaining_quota
  omega

/-- C3 witness: with `max_quota = 8`, `current_quota = 8` the attempt is
rejected and the store still shows quota 8. -/
theorem bookAppointment_full_rejected_witness :
    bookAppointment fullState 7 1 = (BookOutcome.slotFull, fullState) ∧
    (getSchedule (bookAppointment fullState 7 1).2 1).map Schedule.current_quota =
      some 8 := by
  refine ⟨bookAppointment_full_rejected fullState 7 1 fullSched (by decide) (by decide), ?_⟩
  decide

/-- C4 counterexample: rejecting a booking on a full schedule appends no
ledger entry at all — in particular no `"Failed"` record, contrary to the
claim that one is written for auditability. -/
theorem quota_rejection_writes_no_failed_entry :
    (bookAppointment fullState 7 1).1 = BookOutcome.slotFull ∧
    ¬ ∃ e ∈ (bookAppointment fullState 7 1).2.ledger, e.status = "Failed" := by
  decide

/-- C4 amended: a quota-exhausted rejection returns the quota rejection
without mutating quota and without writing any ledger entry (the ledger
is exactly what it was; no `Failed` record exists that was not already
there). -/
theorem bookAppointment_quota_rejection_no_write
    (st : ClinicState) (member_id sid : Nat) (s : Schedule)
    (h : getSchedule st sid = some s)
    (hq : s.remaining_quota ≤ 0) :
    bookAppointment st member_id sid = (BookOutcome.slotFull, st) ∧
    (bookAppointment st member_id sid).2.ledger = st.ledger := by
  refine ⟨bookAppointment_of_full h hq, ?_⟩
  rw [bookAppointment_of_full h hq]

/-- C4 amended witness. -/
theorem bookAppointment_quota_rejection_no_write_witness :
    bookAppointment fullState 7 1 = (BookOutcome.slotFull, fullState) ∧
    (bookAppointment fullState 7 1).2.ledger = fullState.ledger :=
  bookAppointment_quota_rejection_no_write fullState 7 1 fullSched (by decide) (by decide)

/-- C5 counterexample: booking against the nonexistent schedule id 2
does not return a distinct `NotFound` outcome — it produces the very same
generic slot-full rejection as booking against the existing full
schedule 1, so the flow has no `NotFound` result. -/
theorem missing_schedule_not_notfound :
    (bookAppointment fullState 7 2).1 = BookOutcome.slotFull ∧
    (bookAppointment fullState 7 2).1 = (bookAppointment fullState 7 1).1 := by
  decide

/-- C5 amended: for a schedule id absent from the store, the booking
flow returns the generic slot-full rejection (not a distinct `NotFound`),
writes no ledger entry, and leaves all state unchanged. -/
theorem bookAppointment_missing_schedule
    (st : ClinicState) (member_id sid : Nat)
    (h : getSchedule st sid = none) :
    bookAppointment st member_id sid = (BookOutcome.slotFull, st) ∧
    (bookAppointment st member_id sid).2.ledger = st.ledger := by
  refine ⟨bookAppointment_of_none h, ?_⟩
  rw [bookAppointment_of_none h]

/-- C5 amended witness. -/
theorem bookAppointment_missing_schedule_witness :
    bookAppointment fullState 7 2 = (BookOutcome.slotFull, fullState) ∧
    (bookAppointment fullState 7 2).2.ledger = fullState.ledger :=
  bookAppointment_missing_schedule fullState 7 2 (by decide)

/-- C9 counterexample: at the concrete full store the rejection for a
nonexistent schedule id (2) equals the rejection for the existing full
schedule (1), and in fact no pair of inputs exists on which the booking
flow distinguishes the two causes — the claimed distinct
`NotFound` / `QuotaExceeded` reasons do not exist in the code. -/
theorem no_distinguishable_rejection :
    (bookAppointment fullState 7 2).1 = (bookAppointment fullState 9 1).1 ∧
    ¬ ∃ (st : ClinicState) (m m' sid sid' : Nat) (s : Schedule),
      getSchedule st sid = none ∧
      getSchedule st sid' = some s ∧
      s.remaining_quota ≤ 0 ∧
      (bookAppointment st m sid).1 ≠ (bookAppointment st m' sid').1 := by
  refine ⟨by decide, ?_⟩
  rintro ⟨st, m, m', sid, sid', s, h1, h2, h3, hne⟩
  apply hne
  rw [bookAppointment_of_none h1, bookAppointment_of_full h2 h3]

/-- C9 amended: every rejected booking attempt yields the same generic
outcome: a nonexistent schedule id and a full schedule both produce the
`slotFull` rejection, so the caller cannot tell them apart by return
value. -/
theorem rejections_indistinguishable
    (st : ClinicState) (m m' sid sid' : Nat) (s : Schedule)
    (h1 : getSchedule st sid = none)
    (h2 : getSchedule st sid' = some s)
    (h3 : s.remaining_quota ≤ 0) :
    (bookAppointment st m sid).1 = BookOutcome.slotFull ∧
    (bookAppointment st m' sid').1 = BookOutcome.slotFull := by
  rw [bookAppointment_of_none h1, bookAppointment_of_full h2 h3]
  exact ⟨rfl, rfl⟩

/-- C9 amended witness. -/
theorem rejections_indistinguishable_witness :
    (bookAppointment fullState 7 2).1 = BookOutcome.slotFull ∧
    (bookAppointment fullState 9 1).1 = BookOutcome.slotFull :=
  rejections_indistinguishable fullState 7 9 2 1 fullSched (by decide) (by decide) (by decide)

/-- C10: when `create_appointment` succeeds it returns a `"Success"`
record carrying the given member and schedule ids, raises the targeted
schedule's `current_quota` by exactly 1, leaves every other schedule id's
row unchanged, and appends exactly that record to the ledger. -/
theorem create_appointment_success_frame
    (st st' : ClinicState) (member_id sid : Nat) (a : AppointmentRecord)
    (h : create_appointment st member_id sid = (some a, st')) :
    a.member_id = member_id ∧ a.schedule_id = sid ∧ a.status = "Success" ∧
    (∃ s, getSchedule st sid = some s ∧ 0 < s.remaining_quota ∧
      getSchedule st' sid = some { s with current_quota := s.current_quota + 1 }) ∧
    (∀ sid', sid' ≠ sid → getSchedule st' sid' = getSchedule st sid') ∧
    st'.ledger = st.ledger ++ [a] := by
  cases hget : getSchedule st sid with
  | none =>
    rw [create_appointment_of_none hget] at h
    exact absurd (congrArg Prod.fst h) (by simp)
  | some s =>
    by_cases hr : s.remaining_quota ≤ 0
    · rw [create_appointment_of_full hget hr] at h
      exact absurd (congrArg Prod.fst h) (by simp)
    · rw [create_appointment_of_open hget (not_le.mp hr)] at h
      injection h with h1 h2
      injection h1 with h1
      subst h1
      subst h2
      refine ⟨rfl, rfl, rfl, ⟨s, rfl, not_le.mp hr, ?_⟩, ?_, ?_⟩
      · exact getSchedule_map_bumpRow_self hget _
      · intro sid' hne
        exact getSchedule_map_bumpRow_other _ hne
      · rfl

/-- The record produced by a first booking against `openState`. -/
def apptW : AppointmentRecord :=
  { appointment_id := 1, status := "Success", member_id := 1,
    schedule_id := 1, created_at := 0 }

/-- C10 witness: the frame conditions hold for a concrete successful
booking against the open demo store. -/
theorem create_appointment_success_frame_witness :
    apptW.member_id = 1 ∧ apptW.schedule_id = 1 ∧ apptW.status = "Success" ∧
    (∃ s, getSchedule openState 1 = some s ∧ 0 < s.remaining_quota ∧
      getSchedule (create_appointment openState 1 1).2 1 =
        some { s with current_quota := s.current_quota + 1 }) ∧
    (∀ sid', sid' ≠ 1 → getSchedule (create_appointment openState 1 1).2 sid' =
      getSchedule openState sid') ∧
    (create_appointment openState 1 1).2.ledger = openState.ledger ++ [apptW] :=
  create_appointment_success_frame openState
    (create_appointment openState 1 1).2 1 1 apptW (by decide)

instance (l : List Schedule) : Decidable (sortedByTimeSlot l) := by
  unfold sortedByTimeSlot
  infer_instance

/-- A store with two schedules on the same date whose insertion order is
not time-slot ascending. -/
def unsortedState : ClinicState :=
  { schedules :=
      [{ schedule_id := 1, date := 0, time_slot := "10:00-11:00",
         doctor_name := "Lin", department := "Pediatrics",
         max_quota := 8, current_quota := 0 },
       { schedule_id := 2, date := 0, time_slot := "09:00-10:00",
         doctor_name := "Wang", department := "Internal",
         max_quota := 10, current_quota := 0 }]
    ledger := []
    next_appointment_id := 1
    now := 0 }

/-- C6 counterexample: `get_available_schedules` applies no sort, so a
store whose rows for a date arrive out of time-slot order is returned
out of time-slot order — the claimed ascending ordering fails. -/
theorem listByDate_not_sorted :
    (get_available_schedules unsortedState 0).map Schedule.time_slot =
      ["10:00-11:00", "09:00-10:00"] ∧
    ¬ sortedByTimeSlot (get_available_schedules unsortedState 0) := by
  decide

/-- C6 amended: `get_available_schedules` returns exactly the schedules
whose date equals the requested date, in store (insertion) order — a
sublist of the table — with no time-slot sorting applied. -/
theorem get_available_schedules_spec (st : ClinicState) (d : Nat) :
    (get_available_schedules st d).Sublist st.schedules ∧
    ∀ x, x ∈ get_available_schedules st d ↔ x ∈ st.schedules ∧ x.date = d := by
  refine ⟨List.filter_sublist _, ?_⟩
  intro x
  simp [get_available_schedules, List.mem_filter]

/-- C8: `verify_login` returns `none` both for an email absent from the
member table and for a present email with a failing password check, so
the two failure causes produce identical results. -/
theorem verify_login_indistinguishable
    (check : String → String → Bool) (members : List Member)
    (e₁ p₁ e₂ p₂ : String) (m : Member)
    (h₁ : members.find? (fun mm => mm.email == e₁) = none)
    (h₂ : members.find? (fun mm => mm.email == e₂) = some m)
    (h₃ : check m.password_hash p₂ = false) :
    verify_login check members e₁ p₁ = none ∧
    verify_login check members e₂ p₂ = none ∧
    verify_login check members e₁ p₁ = verify_login check members e₂ p₂ := by
  unfold verify_login
  rw [h₁, h₂]
  simp [h₃]

/-- The demo member table used to evaluate `verify_login`. -/
def demoMembers : List Member :=
  [{ member_id := 1, name := "Test", email := "test@example.com",
     medical_record := "MR001", password_hash := "test1234" }]

/-- C8 witness: with a plain-equality stand-in for the bcrypt check, an
unknown email and a known email with a wrong password both yield `none`. -/
theorem verify_login_indistinguishable_witness :
    verify_login (fun h p => h == p) demoMembers "nobody@example.com" "pw" = none ∧
    verify_login (fun h p => h == p) demoMembers "test@example.com" "wrong" = none ∧
    verify_login (fun h p => h == p) demoMembers "nobody@example.com" "pw" =
      verify_login (fun h p => h == p) demoMembers "test@example.com" "wrong" :=
  verify_login_indistinguishable (fun h p => h == p) demoMembers
    "nobody@example.com" "pw" "test@example.com" "wrong"
    { member_id := 1, name := "Test", email := "test@example.com",
      medical_record := "MR001", password_hash := "test1234" }
    (by decide) (by decide) (by decide)

/-- The store for the race: one open slot left (`max_quota = 1`,
`current_quota = 0`), two concurrent callers 10 and 11. -/
def raceState : ClinicState :=
  { schedules := [{ schedule_id := 1, date := 0, time_slot := "09:00-10:00",
                    doctor_name := "Wang", department := "Internal",
                    max_quota := 1, current_quota := 0 }]
    ledger := []
    next_appointment_id := 1
    now := 0 }

/-- Caller A's snapshot read (line 78 of the source) in `raceState`. -/
def raceSnapA : Option Schedule := create_appointment_read raceState 1

/-- Caller B's snapshot read, taken before A commits: identical stale
snapshot of the same row. -/
def raceSnapB : Option Schedule := create_appointment_read raceState 1

/-- The state after caller A's commit. -/
def raceAfterA : Option AppointmentRecord × ClinicState :=
  create_appointment_commit raceState raceSnapA 10 1

/-- The state after caller B's commit, performed with B's stale snapshot
against the store A already updated: the interleaving
read-A, read-B, commit-A, commit-B of the two calls. -/
def raceAfterB : Option AppointmentRecord × ClinicState :=
  create_appointment_commit raceAfterA.2 raceSnapB 11 1

/-- C2: with `remaining_quota = 1` and two concurrent
`create_appointment` calls, the interleaving that runs both quota checks
(line 82) before either commit (lines 85-92) makes BOTH callers succeed:
2 `Success` ledger entries where the claim demands exactly 1 `Success`
and 1 `QuotaExceeded`.  The check and the increment are two separate
steps, not one indivisible operation. -/
theorem race_two_successes_on_last_slot :
    raceAfterA.1.isSome = true ∧
    raceAfterB.1.isSome = true ∧
    raceAfterB.2.ledger.length = 2 ∧
    (raceAfterB.2.ledger.filter (fun e => e.status == "Success")).length = 2 ∧
    (getSchedule raceState 1).map Schedule.remaining_quota = some 1 := by
  decide

/-! ### The ledger round-trip (claim C7) -/

/-- Timestamps in the ledger are strictly increasing in insertion order
and below the clock — true of every state the app reaches, since each
commit stamps the current clock and advances it. -/
def ledgerChrono (st : ClinicState) : Prop :=
  (∀ e ∈ st.ledger, e.created_at < st.now) ∧
  List.Pairwise (fun a b => a.created_at < b.created_at) st.ledger

/-- A sequence of booking attempts by one member, in program order;
returns the final state and the successful records oldest-first. -/
def runMemberBookings (st : ClinicState) (member_id : Nat) :
    List Nat → ClinicState × List AppointmentRecord
  | [] => (st, [])
  | sid :: rest =>
    match create_appointment st member_id sid with
    | (some a, st') =>
      let r := runMemberBookings st' member_id rest
      (r.1, a :: r.2)
    | (none, st') => runMemberBookings st' member_id rest

/-- Shape of a successful `create_appointment`: the ledger grows by the
returned record, stamped with the member id and the current clock, and
the clock advances. -/
theorem create_appointment_some_shape {st : ClinicState} {member_id sid : Nat}
    {a : AppointmentRecord} {st' : ClinicState}
    (h : create_appointment st member_id sid = (some a, st')) :
    st'.ledger = st.ledger ++ [a] ∧ a.member_id = member_id ∧
    a.created_at = st.now ∧ st'.now = st.now + 1 := by
  cases hget : getSchedule st sid with
  | none =>
    rw [create_appointment_of_none hget] at h
    exact absurd (congrArg Prod.fst h) (by simp)
  | some s =>
    by_cases hr : s.remaining_quota ≤ 0
    · rw [create_appointment_of_full hget hr] at h
      exact absurd (congrArg Prod.fst h) (by simp)
    · rw [create_appointment_of_open hget (not_le.mp hr)] at h
      injection h with h1 h2
      injection h1 with h1
      subst h1
      subst h2
      exact ⟨rfl, rfl, rfl, rfl⟩

/-- Shape of a failed `create_appointment`: the state is untouched. -/
theorem create_appointment_none_shape {st : ClinicState} {member_id sid : Nat}
    {st' : ClinicState}
    (h : create_appointment st member_id sid = (none, st')) : st' = st := by
  cases hget : getSchedule st sid with
  | none =>
    rw [create_appointment_of_none hget] at h
    exact (congrArg Prod.snd h).symm
  | some s =>
    by_cases hr : s.remaining_quota ≤ 0
    · rw [create_appointment_of_full hget hr] at h
      exact (congrArg Prod.snd h).symm
    · rw [create_appointment_of_open hget (not_le.mp hr)] at h
      exact absurd (congrArg Prod.fst h) (by simp)

/-- A commit keeps ledger timestamps strictly increasing and below the
clock. -/
theorem ledgerChrono_create {st : ClinicState} (member_id sid : Nat)
    (h : ledgerChrono st) :
    ledgerChrono (create_appointment st member_id sid).2 := by
  cases hca : create_appointment st member_id sid with
  | mk oa st' =>
    cases oa with
    | none =>
      rw [create_appointment_none_shape hca]
      exact h
    | some a =>
      obtain ⟨hl, hm, hct, hnow⟩ := create_appointment_some_shape hca
      obtain ⟨hbound, hpair⟩ := h
      show ledgerChrono st'
      constructor
      · intro e he
        rw [hl] at he
        rcases List.mem_append.mp he with he | he
        · have := hbound e he
          omega
        · have : e = a := by simpa using he
          subst this
          omega
      · rw [hl]
        rw [List.pairwise_append]
        refine ⟨hpair, by simp, ?_⟩
        intro x hx y hy
        have : y = a := by simpa using hy
        subst this
        have := hbound x hx
        omega

/-- Along a run of bookings by one member, the chronology is preserved
and the member's slice of the ledger grows by exactly the successful
records, in order. -/
theorem runMemberBookings_ledger (member_id : Nat) :
    ∀ (sids : List Nat) (st : ClinicState), ledgerChrono st →
      ledgerChrono (runMemberBookings st member_id sids).1 ∧
      (runMemberBookings st member_id sids).1.ledger.filter
          (fun a => a.member_id == member_id) =
        st.ledger.filter (fun a => a.member_id == member_id) ++
          (runMemberBookings st member_id sids).2 := by
  intro sids
  induction sids with
  | nil =>
    intro st hc
    exact ⟨hc, by simp [runMemberBookings]⟩
  | cons sid rest ih =>
    intro st hc
    have hc' : ledgerChrono (create_appointment st member_id sid).2 :=
      ledgerChrono_create member_id sid hc
    cases hca : create_appointment st member_id sid with
    | mk oa st' =>
      rw [hca] at hc'
      cases oa with
      | none =>
        have hst : st' = st := create_appointment_none_shape hca
        subst hst
        obtain ⟨ihc, ihf⟩ := ih st' hc'
        simp only [runMemberBookings, hca]
        exact ⟨ihc, ihf⟩
      | some a =>
        obtain ⟨hl, hm, hct, hnow⟩ := create_appointment_some_shape hca
        obtain ⟨ihc, ihf⟩ := ih st' hc'
        simp only [runMemberBookings, hca]
        refine ⟨ihc, ?_⟩
        rw [ihf, hl, List.filter_append]
        have : List.filter (fun a => a.member_id == member_id) [a] = [a] := by
          simp [List.filter, hm]
        rw [this]
        simp

/-- Inserting a record strictly older than everything in the list lands
at the back. -/
theorem insertByCreatedDesc_oldest (a : AppointmentRecord) :
    ∀ (l : List AppointmentRecord),
      (∀ b ∈ l, a.created_at < b.created_at) →
      insertByCreatedDesc a l = l ++ [a] := by
  intro l
  induction l with
  | nil => intro _; rfl
  | cons b l ih =>
    intro hall
    have hb : a.created_at < b.created_at := hall b (by simp)
    have hnb : ¬ b.created_at ≤ a.created_at := by omega
    simp only [insertByCreatedDesc, if_neg hnb]
    rw [ih (fun c hc => hall c (by simp [hc]))]
    simp

/-- Sorting a strictly chronologically increasing list by `created_at`
descending is exactly reversal. -/
theorem sortByCreatedDesc_strictInc :
    ∀ (l : List AppointmentRecord),
      List.Pairwise (fun x y => x.created_at < y.created_at) l →
      sortByCreatedDesc l = l.reverse := by
  intro l
  induction l with
  | nil => intro _; rfl
  | cons a l ih =>
    intro hp
    have h1 : ∀ b ∈ l, a.created_at < b.created_at :=
      fun b hb => List.rel_of_pairwise_cons hp hb
    have h2 : List.Pairwise (fun x y => x.created_at < y.created_at) l :=
      List.Pairwise.of_cons hp
    show insertByCreatedDesc a (sortByCreatedDesc l) = (a :: l).reverse
    rw [ih h2]
    rw [insertByCreatedDesc_oldest a l.reverse
      (fun b hb => h1 b (List.mem_reverse.mp hb))]
    simp

/-- C7: starting from any chronologically consistent state holding no
records for the member, a run of bookings with N successes makes
`my_appointments` return exactly the N successful records, most recent
first — the reverse of the ledger's insertion order. -/
theorem my_appointments_round_trip
    (st : ClinicState) (member_id : Nat) (sids : List Nat) (N : Nat)
    (hc : ledgerChrono st)
    (h0 : st.ledger.filter (fun a => a.member_id == member_id) = [])
    (hN : (runMemberBookings st member_id sids).2.length = N) :
    my_appointments (runMemberBookings st member_id sids).1 member_id =
      (runMemberBookings st member_id sids).2.reverse ∧
    (my_appointments (runMemberBookings st member_id sids).1 member_id).length
      = N := by
  obtain ⟨hch, hfl⟩ := runMemberBookings_ledger member_id sids st hc
  rw [h0] at hfl
  rw [List.nil_append] at hfl
  have hpair :
      List.Pairwise (fun x y => x.created_at < y.created_at)
        ((runMemberBookings st member_id sids).1.ledger.filter
          (fun a => a.member_id == member_id)) :=
    hch.2.sublist (List.filter_sublist _)
  rw [hfl] at hpair
  have hmain :
      my_appointments (runMemberBookings st member_id sids).1 member_id =
        (runMemberBookings st member_id sids).2.reverse := by
    unfold my_appointments
    rw [hfl]
    exact sortByCreatedDesc_strictInc _ hpair
  refine ⟨hmain, ?_⟩
  rw [hmain, List.length_reverse, hN]

/-- A store with one wide-open schedule and an empty ledger, for the
round-trip witness. -/
def roundTripState : ClinicState :=
  { schedules := [{ schedule_id := 1, date := 0, time_slot := "09:00-10:00",
                    doctor_name := "Wang", department := "Internal",
                    max_quota := 5, current_quota := 0 }]
    ledger := []
    next_appointment_id := 1
    now := 0 }

/-- C7 witness: two successful bookings by member 1 produce exactly the
two records, most recent first. -/
theorem my_appointments_round_trip_witness :
    my_appointments (runMemberBookings roundTripState 1 [1, 1]).1 1 =
      (runMemberBookings roundTripState 1 [1, 1]).2.reverse ∧
    (my_appointments (runMemberBookings roundTripState 1 [1, 1]).1 1).length
      = 2 :=
  my_appointments_round_trip roundTripState 1 [1, 1] 2
    (by unfold ledgerChrono; decide) (by decide) (by decide)

end Clinic
